import Mathlib

/-!
# Input event CPU frequency booster (`drivers/input/input-cfboost.c`)

A shallow embedding of the module: its globals (`qos_req`, `boost`, `unboost`,
`boost_freq`, `boost_time`, `cfb_wq`) become the fields of `State`, every C
function becomes a state transformer, and every call into the kernel is
recorded, with the value of `jiffies` at which it is made, in `State.trace`.

The kernel primitives the module calls (workqueues, delayed work, PM QoS, the
input core, `printk`) are not part of the sources.  They are modelled by their
documented effect on the module's own objects; the constants and the unit
conversion the headers provide are the fields of `Kernel`.

The module does no arithmetic of its own.  `boost_freq` is an `unsigned int`
that is passed to an `s32` parameter, which `s32` models; `boost_time` is
only passed to `msecs_to_jiffies`; time is counted in jiffies without
wrap-around.
-/

set_option linter.unusedVariables false

namespace CFBoost

/-- Constants and helpers that the kernel headers provide and the sources only
use: the tick conversion `msecs_to_jiffies`, the sentinel
`PM_QOS_DEFAULT_VALUE` and the errno `ENOMEM`. -/
structure Kernel where
  msecs_to_jiffies : Nat → Nat
  PM_QOS_DEFAULT_VALUE : Int
  ENOMEM : Int

/-- One call from the module into the kernel, as it appears in the source. -/
inductive Call where
  | create_workqueue (name : String) (ok : Bool)
  | destroy_workqueue
  | INIT_WORK
  | INIT_DELAYED_WORK
  | input_register_handler (ret : Int)
  | input_unregister_handler
  | pm_qos_add_request (value : Int)
  | pm_qos_update_request (value : Int)
  | pm_qos_remove_request
  | cancel_work_sync
  | cancel_delayed_work_sync
  | queue_work
  | queue_delayed_work (delay : Nat)
  | printk (fmt : String) (args : List Nat)
  deriving DecidableEq, Repr

/-- The module's globals, the clock, and the record of kernel calls.

* `cfb_wq`: the workqueue pointer is non-NULL;
* `boost`: `work_pending(&boost)`;
* `unboost`: the expiry (in jiffies) of the delayed work when it is pending;
* `qos_req`: the value held by the request while it is on the constraint list;
* `handler`: `cfb_input_handler` is registered with the input core. -/
structure State where
  jiffies : Nat
  boost_freq : Nat
  boost_time : Nat
  cfb_wq : Bool
  boost : Bool
  unboost : Option Nat
  qos_req : Option Int
  handler : Bool
  trace : List (Nat × Call)
  deriving DecidableEq, Repr

/-- Append a kernel call, stamped with the current `jiffies`, to the trace. -/
def State.emit (s : State) (c : Call) : State :=
  { s with trace := s.trace ++ [(s.jiffies, c)] }

/-! ## Kernel primitives, by their effect on the module's objects -/

/-- `printk(fmt, args...)`: one log line. -/
def printk (fmt : String) (args : List Nat) (s : State) : State :=
  s.emit (Call.printk fmt args)

/-- `cancel_delayed_work_sync(&unboost)`: the delayed work is no longer
pending when the call returns. -/
def cancel_delayed_work_sync (s : State) : State :=
  { s.emit Call.cancel_delayed_work_sync with unboost := none }

/-- `cancel_work_sync(&boost)`: the work is no longer pending when the call
returns. -/
def cancel_work_sync (s : State) : State :=
  { s.emit Call.cancel_work_sync with boost := false }

/-- `pm_qos_update_request(&qos_req, value)`: a request that is on the
constraint list takes the new value; on a request that is not, the call has
no effect on it. -/
def pm_qos_update_request (value : Int) (s : State) : State :=
  { s.emit (Call.pm_qos_update_request value) with
    qos_req := s.qos_req.map (fun _ => value) }

/-- `pm_qos_add_request(&qos_req, PM_QOS_CPU_FREQ_MIN, value)`. -/
def pm_qos_add_request (value : Int) (s : State) : State :=
  { s.emit (Call.pm_qos_add_request value) with qos_req := some value }

/-- `pm_qos_remove_request(&qos_req)`. -/
def pm_qos_remove_request (s : State) : State :=
  { s.emit Call.pm_qos_remove_request with qos_req := none }

/-- `queue_work(cfb_wq, &boost)`: sets the pending bit unless it is set. -/
def queue_work (s : State) : State :=
  if s.boost then s else { s.emit Call.queue_work with boost := true }

/-- `queue_delayed_work(cfb_wq, &unboost, delay)`: arms the timer `delay`
jiffies from now unless the delayed work is already pending. -/
def queue_delayed_work (delay : Nat) (s : State) : State :=
  if s.unboost.isSome then s.emit (Call.queue_delayed_work delay)
  else { s.emit (Call.queue_delayed_work delay) with
         unboost := some (s.jiffies + delay) }

/-- `create_workqueue(name)`; `ok` is whether the allocation succeeds. -/
def create_workqueue (name : String) (ok : Bool) (s : State) : State :=
  { s.emit (Call.create_workqueue name ok) with cfb_wq := ok }

/-- `destroy_workqueue(cfb_wq)`.  The module only calls it with no work
pending, so nothing is drained. -/
def destroy_workqueue (s : State) : State :=
  { s.emit Call.destroy_workqueue with cfb_wq := false }

/-- `INIT_WORK(&boost, cfb_boost)`. -/
def INIT_WORK (s : State) : State :=
  { s.emit Call.INIT_WORK with boost := false }

/-- `INIT_DELAYED_WORK(&unboost, cfb_unboost)`. -/
def INIT_DELAYED_WORK (s : State) : State :=
  { s.emit Call.INIT_DELAYED_WORK with unboost := none }

/-- `input_register_handler(&cfb_input_handler)` returning `ret`; the handler
is registered exactly when `ret` is zero. -/
def input_register_handler (ret : Int) (s : State) : State :=
  { s.emit (Call.input_register_handler ret) with
    handler := if ret = 0 then true else s.handler }

/-- `input_unregister_handler(&cfb_input_handler)`. -/
def input_unregister_handler (s : State) : State :=
  { s.emit Call.input_unregister_handler with handler := false }

/-- The value an `unsigned int` argument has on arrival in an `s32`
parameter, which is how `pm_qos_update_request` takes its new value: the low
32 bits, read as a two's complement number. -/
def s32 (n : Nat) : Int :=
  if n % 4294967296 < 2147483648 then ((n % 4294967296 : Nat) : Int)
  else ((n % 4294967296 : Nat) : Int) - 4294967296

/-! ## The module's functions -/

/-- `cfb_boost` (lines 60-66).  `boost_freq` is an `unsigned int` and reaches
`pm_qos_update_request` through its `s32` parameter. -/
def cfb_boost (K : Kernel) (s : State) : State :=
  let s := cancel_delayed_work_sync s
  let s := pm_qos_update_request (s32 s.boost_freq) s
  let s := printk "CFBoost: Input detected. Boosting for %ld msec" [s.boost_time] s
  queue_delayed_work (K.msecs_to_jiffies s.boost_time) s

/-- `cfb_unboost` (lines 68-72). -/
def cfb_unboost (K : Kernel) (s : State) : State :=
  let s := printk "CFBoost: Unboosting now" [] s
  pm_qos_update_request K.PM_QOS_DEFAULT_VALUE s

/-- `cfb_input_event` (lines 74-79).  The event's `type`, `code` and `value`
are parameters the body never reads. -/
def cfb_input_event (s : State) (type code : Nat) (value : Int) : State :=
  if !s.boost then queue_work s else s

/-- `cfboost_init` (lines 144-161).  `wq_ok` is whether `create_workqueue`
succeeds and `reg_ret` what `input_register_handler` returns. -/
def cfboost_init (K : Kernel) (wq_ok : Bool) (reg_ret : Int) (s : State) :
    Int × State :=
  let s := create_workqueue "icfb-wq" wq_ok s
  if !s.cfb_wq then (-K.ENOMEM, s)
  else
    let s := INIT_WORK s
    let s := INIT_DELAYED_WORK s
    let s := input_register_handler reg_ret s
    if reg_ret ≠ 0 then (reg_ret, destroy_workqueue s)
    else (0, pm_qos_add_request K.PM_QOS_DEFAULT_VALUE s)

/-- `cfboost_exit` (lines 163-173). -/
def cfboost_exit (s : State) : State :=
  let s := input_unregister_handler s
  let s := cancel_work_sync s
  let s := cancel_delayed_work_sync s
  let s := destroy_workqueue s
  pm_qos_remove_request s

/-! ## The execution environment: worker, timer and clock -/

/-- The worker of `cfb_wq` picks up `boost`: the pending bit is cleared and
the work function `cfb_boost` runs.  Nothing happens when it is not pending. -/
def process_one_work (K : Kernel) (s : State) : State :=
  if s.boost then cfb_boost K { s with boost := false } else s

/-- The timer of `unboost` is checked: when it is pending and its expiry has
been reached, the pending state is cleared and `cfb_unboost` runs. -/
def run_timers (K : Kernel) (s : State) : State :=
  match s.unboost with
  | some d => if d ≤ s.jiffies then cfb_unboost K { s with unboost := none } else s
  | none => s

/-- One jiffy passes. -/
def advance (s : State) : State :=
  { s with jiffies := s.jiffies + 1 }

/-- One jiffy passes and the timer is checked. -/
def tick (K : Kernel) (s : State) : State :=
  run_timers K (advance s)

/-- Let `n` jiffies pass, checking the timer at every instant from now to
`n` jiffies from now. -/
def elapse (K : Kernel) : Nat → State → State
  | 0, s => run_timers K s
  | n + 1, s => tick K (elapse K n s)

/-- An activity signal whose boost work runs as soon as it is queued. -/
def signal (K : Kernel) (s : State) (type code : Nat) (value : Int) : State :=
  process_one_work K (cfb_input_event s type code value)

/-- A kernel with a 1 ms tick (`HZ = 1000`), `PM_QOS_DEFAULT_VALUE = -1` and
`ENOMEM = 12`. -/
def msKernel : Kernel :=
  { msecs_to_jiffies := fun m => m, PM_QOS_DEFAULT_VALUE := -1, ENOMEM := 12 }

/-- The module before `cfboost_init`, at time `now`, with its parameters. -/
def unloaded (now boost_freq boost_time : Nat) : State :=
  { jiffies := now, boost_freq := boost_freq, boost_time := boost_time,
    cfb_wq := false, boost := false, unboost := none, qos_req := none,
    handler := false, trace := [] }

/-- The `pm_qos_update_request` calls of a trace, in order, each with the
time at which it was made. -/
def qos_updates : List (Nat × Call) → List (Nat × Int)
  | [] => []
  | (t, Call.pm_qos_update_request v) :: rest => (t, v) :: qos_updates rest
  | _ :: rest => qos_updates rest

/-- The log lines of a trace, in order. -/
def log_lines : List (Nat × Call) → List (Nat × String)
  | [] => []
  | (t, Call.printk fmt _) :: rest => (t, fmt) :: log_lines rest
  | _ :: rest => log_lines rest

/-- An activity signal of a burst: the jiffies that pass since the previous
signal (or since the start), and the event's payload. -/
structure Signal where
  gap : Nat
  type : Nat
  code : Nat
  value : Int
  deriving DecidableEq, Repr

/-- A burst of activity signals: for each one, `gap` jiffies pass and then the
event arrives and its boost work runs at once. -/
def burst (K : Kernel) : List Signal → State → State
  | [], s => s
  | e :: es, s => burst K es (signal K (elapse K e.gap s) e.type e.code e.value)

/-- The instants of the signals of a burst that starts at time `t`. -/
def signal_times : Nat → List Signal → List Nat
  | _, [] => []
  | t, e :: es => (t + e.gap) :: signal_times (t + e.gap) es

/-- The instant of the last signal of a burst that starts at time `t`. -/
def last_signal : Nat → List Signal → Nat
  | t, [] => t
  | t, e :: es => last_signal (t + e.gap) es

/-- Number of `pm_qos_update_request` calls with value `v` in a trace. -/
def update_count (v : Int) (tr : List (Nat × Call)) : Nat :=
  (qos_updates tr).countP (fun e => decide (e.2 = v))

/-- The initial value of the module parameter `boost_freq` (line 54), kHz. -/
def boost_freq_init : Nat := 1026000

/-- The initial value of the module parameter `boost_time` (line 56), ms. -/
def boost_time_init : Nat := 500

/-- The module as loaded at time 0 with its parameters at their initial
values, after a successful `cfboost_init`. -/
def loaded_default (K : Kernel) : State :=
  (cfboost_init K true 0 (unloaded 0 boost_freq_init boost_time_init)).2

/-- Number of `queue_work` calls in a trace. -/
def queued (tr : List (Nat × Call)) : Nat :=
  tr.countP (fun e => decide (e.2 = Call.queue_work))

/-- Number of executions of `cfb_boost` in a trace, counted by the
`queue_delayed_work` call that only `cfb_boost` makes. -/
def boost_runs (tr : List (Nat × Call)) : Nat :=
  tr.countP (fun e => match e.2 with
    | Call.queue_delayed_work _ => true
    | _ => false)

/-- One when the boost work is pending, zero when it is not. -/
def pending_count (s : State) : Nat := if s.boost then 1 else 0

/-! ## Interleavings -/

/-- What can happen to a loaded module, each taken as one atomic step.  A
write to `boost_freq` is of an `unsigned int`; `s32` reads only the low 32
bits of what is stored. -/
inductive Action where
  | input (type code : Nat) (value : Int)
  | work
  | expire
  | advance
  | set_boost_freq (v : Nat)
  | set_boost_time (v : Nat)
  deriving DecidableEq, Repr

/-- The input core passes an event to `cfb_input_event` only while the
handler is registered. -/
def input_pass_event (s : State) (type code : Nat) (value : Int) : State :=
  if s.handler then cfb_input_event s type code value else s

/-- One atomic step. -/
def step (K : Kernel) : Action → State → State
  | Action.input type code value, s => input_pass_event s type code value
  | Action.work, s => process_one_work K s
  | Action.expire, s => run_timers K s
  | Action.advance, s => advance s
  | Action.set_boost_freq v, s => { s with boost_freq := v }
  | Action.set_boost_time v, s => { s with boost_time := v }

/-- Run a sequence of atomic steps, first to last. -/
def run (K : Kernel) : List Action → State → State
  | [], s => s
  | a :: as, s => run K as (step K a s)

/-- The next kernel call `cfboost_init` or `cfboost_exit` is about to make. -/
inductive Pc where
  | init_create_workqueue
  | init_INIT_WORK
  | init_INIT_DELAYED_WORK
  | init_register_handler
  | init_destroy_workqueue (ret : Int)
  | init_add_request
  | init_returned (ret : Int)
  | exit_cancel_work
  | exit_cancel_delayed_work
  | exit_destroy_workqueue
  | exit_remove_request
  | exit_returned
  deriving DecidableEq, Repr

/-- The module together with the position of its init or exit code. -/
structure Module where
  pc : Pc
  st : State
  deriving DecidableEq, Repr

/-- Execute the one kernel call at `pc`.  After `cfboost_init` has returned 0
the module is loaded and its next call is the first one of `cfboost_exit`;
after it has returned an error there is no next call. -/
def module_step (K : Kernel) (wq_ok : Bool) (reg_ret : Int) : Module → Module
  | ⟨Pc.init_create_workqueue, s⟩ =>
    let s := create_workqueue "icfb-wq" wq_ok s
    if !s.cfb_wq then ⟨Pc.init_returned (-K.ENOMEM), s⟩ else ⟨Pc.init_INIT_WORK, s⟩
  | ⟨Pc.init_INIT_WORK, s⟩ => ⟨Pc.init_INIT_DELAYED_WORK, INIT_WORK s⟩
  | ⟨Pc.init_INIT_DELAYED_WORK, s⟩ => ⟨Pc.init_register_handler, INIT_DELAYED_WORK s⟩
  | ⟨Pc.init_register_handler, s⟩ =>
    let s := input_register_handler reg_ret s
    if reg_ret ≠ 0 then ⟨Pc.init_destroy_workqueue reg_ret, s⟩ else ⟨Pc.init_add_request, s⟩
  | ⟨Pc.init_destroy_workqueue ret, s⟩ => ⟨Pc.init_returned ret, destroy_workqueue s⟩
  | ⟨Pc.init_add_request, s⟩ =>
    ⟨Pc.init_returned 0, pm_qos_add_request K.PM_QOS_DEFAULT_VALUE s⟩
  | ⟨Pc.init_returned ret, s⟩ =>
    if ret = 0 then ⟨Pc.exit_cancel_work, input_unregister_handler s⟩
    else ⟨Pc.init_returned ret, s⟩
  | ⟨Pc.exit_cancel_work, s⟩ => ⟨Pc.exit_cancel_delayed_work, cancel_work_sync s⟩
  | ⟨Pc.exit_cancel_delayed_work, s⟩ =>
    ⟨Pc.exit_destroy_workqueue, cancel_delayed_work_sync s⟩
  | ⟨Pc.exit_destroy_workqueue, s⟩ => ⟨Pc.exit_remove_request, destroy_workqueue s⟩
  | ⟨Pc.exit_remove_request, s⟩ => ⟨Pc.exit_returned, pm_qos_remove_request s⟩
  | ⟨Pc.exit_returned, s⟩ => ⟨Pc.exit_returned, s⟩

/-- A step of the whole system: the next kernel call of init or exit, or
something that happens in between. -/
inductive SysAction where
  | module (wq_ok : Bool) (reg_ret : Int)
  | env (a : Action)
  deriving DecidableEq, Repr

/-- One step of the whole system. -/
def sys_step (K : Kernel) : SysAction → Module → Module
  | SysAction.module wq_ok reg_ret, m => module_step K wq_ok reg_ret m
  | SysAction.env a, m => { m with st := step K a m.st }

/-- Run a sequence of system steps, first to last. -/
def sys_run (K : Kernel) : List SysAction → Module → Module
  | [], m => m
  | a :: as, m => sys_run K as (sys_step K a m)

/-- The QoS request is on the constraint list. -/
def qos_active (s : State) : Bool := s.qos_req.isSome

/-- The position is past `cfboost_init`: the module is loaded, is running
`cfboost_exit`, or has finished either. -/
def Pc.after_init : Pc → Bool
  | Pc.init_returned _ => true
  | Pc.exit_cancel_work => true
  | Pc.exit_cancel_delayed_work => true
  | Pc.exit_destroy_workqueue => true
  | Pc.exit_remove_request => true
  | Pc.exit_returned => true
  | _ => false

/-- The module about to be loaded at time 0 with its parameters at their
initial values. -/
def module_unloaded : Module :=
  ⟨Pc.init_create_workqueue, unloaded 0 boost_freq_init boost_time_init⟩

/-- The first four kernel calls of a `cfboost_init` in which every call
succeeds: up to and including `input_register_handler` (line 153), short of
`pm_qos_add_request` (line 158). -/
def init_until_registered : List SysAction :=
  [SysAction.module true 0, SysAction.module true 0, SysAction.module true 0,
   SysAction.module true 0]

/-- A touch event is delivered and the worker runs the boost work. -/
def event_and_boost : List SysAction :=
  [SysAction.env (Action.input 3 0 1), SysAction.env Action.work]

/-! ## Device connection (`cfb_input_connect`, `cfb_input_disconnect`) -/

/-- The fields of `struct input_handle` that the module writes; devices and
handlers are named by their address. -/
structure input_handle where
  dev : Nat
  handler : Nat
  name : String
  deriving DecidableEq, Repr

/-- One call of the connect or disconnect path into the kernel. -/
inductive InputCall where
  | kzalloc (ret : Option Nat)
  | input_register_handle (handle : Nat) (ret : Int)
  | input_open_device (handle : Nat) (ret : Int)
  | input_close_device (handle : Nat)
  | input_unregister_handle (handle : Nat)
  | kfree (handle : Nat)
  deriving DecidableEq, Repr

/-- What the connect path acts on: the allocated handles by address, the
addresses of the registered handles and of the handles with an open device,
and the record of calls. -/
structure InputCore where
  heap : List (Nat × input_handle)
  registered : List Nat
  opened : List Nat
  calls : List InputCall
  deriving DecidableEq, Repr

/-- `kzalloc(sizeof(struct input_handle), GFP_KERNEL)` returning `ret`
(`none` is NULL); the new handle is zero-filled. -/
def kzalloc (ret : Option Nat) (c : InputCore) : InputCore :=
  match ret with
  | none => { c with calls := c.calls ++ [InputCall.kzalloc none] }
  | some p =>
    { c with
      heap := (p, { dev := 0, handler := 0, name := "" }) :: c.heap,
      calls := c.calls ++ [InputCall.kzalloc (some p)] }

/-- A write through the pointer `p` to a field of the handle. -/
def handle_write (p : Nat) (f : input_handle → input_handle) (c : InputCore) : InputCore :=
  { c with heap := c.heap.map (fun e => if e.1 = p then (e.1, f e.2) else e) }

/-- The handle stored at address `p`. -/
def handle_at (p : Nat) (c : InputCore) : Option input_handle :=
  (c.heap.find? (fun e => decide (e.1 = p))).map (fun e => e.2)

/-- `kfree(handle)`. -/
def kfree (p : Nat) (c : InputCore) : InputCore :=
  { c with
    heap := c.heap.filter (fun e => decide (e.1 ≠ p)),
    calls := c.calls ++ [InputCall.kfree p] }

/-- `input_register_handle(handle)` returning `ret`; the handle is registered
exactly when `ret` is zero. -/
def input_register_handle (p : Nat) (ret : Int) (c : InputCore) : InputCore :=
  { c with
    registered := if ret = 0 then p :: c.registered else c.registered,
    calls := c.calls ++ [InputCall.input_register_handle p ret] }

/-- `input_unregister_handle(handle)`. -/
def input_unregister_handle (p : Nat) (c : InputCore) : InputCore :=
  { c with
    registered := c.registered.filter (fun q => decide (q ≠ p)),
    calls := c.calls ++ [InputCall.input_unregister_handle p] }

/-- `input_open_device(handle)` returning `ret`; the device is open through
the handle exactly when `ret` is zero. -/
def input_open_device (p : Nat) (ret : Int) (c : InputCore) : InputCore :=
  { c with
    opened := if ret = 0 then p :: c.opened else c.opened,
    calls := c.calls ++ [InputCall.input_open_device p ret] }

/-- `input_close_device(handle)`. -/
def input_close_device (p : Nat) (c : InputCore) : InputCore :=
  { c with
    opened := c.opened.filter (fun q => decide (q ≠ p)),
    calls := c.calls ++ [InputCall.input_close_device p] }

/-- `cfb_input_connect` (lines 81-110).  `alloc` is what `kzalloc` returns,
`reg_ret` what `input_register_handle` returns and `open_ret` what
`input_open_device` returns; `id` is a parameter the body never reads. -/
def cfb_input_connect (K : Kernel) (alloc : Option Nat) (reg_ret open_ret : Int)
    (handler dev id : Nat) (c : InputCore) : Int × InputCore :=
  let c := kzalloc alloc c
  match alloc with
  | none => (-K.ENOMEM, c)
  | some handle =>
    let c := handle_write handle (fun h => { h with dev := dev }) c
    let c := handle_write handle (fun h => { h with handler := handler }) c
    let c := handle_write handle (fun h => { h with name := "icfboost" }) c
    let error := reg_ret
    let c := input_register_handle handle error c
    if error ≠ 0 then (error, kfree handle c)
    else
      let error := open_ret
      let c := input_open_device handle error c
      if error ≠ 0 then (error, kfree handle (input_unregister_handle handle c))
      else (0, c)

/-- `cfb_input_disconnect` (lines 112-117). -/
def cfb_input_disconnect (handle : Nat) (c : InputCore) : InputCore :=
  let c := input_close_device handle c
  let c := input_unregister_handle handle c
  kfree handle c

/-- The address `p` is in use nowhere. -/
def fresh (p : Nat) (c : InputCore) : Prop :=
  (∀ e ∈ c.heap, e.1 ≠ p) ∧ p ∉ c.registered ∧ p ∉ c.opened

/-! ## Basic facts -/

/-- Below 2^31 the conversion changes nothing. -/
theorem s32_of_lt (n : Nat) (h : n < 2147483648) : s32 n = (n : Int) := by
  have h1 : n % 4294967296 = n := Nat.mod_eq_of_lt (by omega)
  simp [s32, h1, h]

/-- From 2^31 up to 2^32 the value arrives negative. -/
theorem s32_of_ge (n : Nat) (h1 : 2147483648 ≤ n) (h2 : n < 4294967296) :
    s32 n = (n : Int) - 4294967296 := by
  have hm : n % 4294967296 = n := Nat.mod_eq_of_lt h2
  have hn : ¬ n < 2147483648 := by omega
  simp [s32, hm, hn]

theorem s32_boost_freq_init : s32 1026000 = 1026000 := by decide

/-- The largest `unsigned int` arrives as -1. -/
theorem s32_all_ones : s32 4294967295 = -1 := by decide

theorem cfb_boost_eq (K : Kernel) (s : State) :
    cfb_boost K s =
      { s with
        unboost := some (s.jiffies + K.msecs_to_jiffies s.boost_time),
        qos_req := s.qos_req.map (fun _ => (s32 s.boost_freq)),
        trace := s.trace ++
          [(s.jiffies, Call.cancel_delayed_work_sync),
           (s.jiffies, Call.pm_qos_update_request (s32 s.boost_freq)),
           (s.jiffies, Call.printk "CFBoost: Input detected. Boosting for %ld msec"
              [s.boost_time]),
           (s.jiffies, Call.queue_delayed_work (K.msecs_to_jiffies s.boost_time))] } := by
  simp [cfb_boost, cancel_delayed_work_sync, pm_qos_update_request, printk,
    queue_delayed_work, State.emit]

theorem cfb_unboost_eq (K : Kernel) (s : State) :
    cfb_unboost K s =
      { s with
        qos_req := s.qos_req.map (fun _ => K.PM_QOS_DEFAULT_VALUE),
        trace := s.trace ++
          [(s.jiffies, Call.printk "CFBoost: Unboosting now" []),
           (s.jiffies, Call.pm_qos_update_request K.PM_QOS_DEFAULT_VALUE)] } := by
  simp [cfb_unboost, pm_qos_update_request, printk, State.emit]

theorem signal_eq (K : Kernel) (s : State) (type code : Nat) (value : Int)
    (hb : s.boost = false) :
    signal K s type code value =
      { s with
        unboost := some (s.jiffies + K.msecs_to_jiffies s.boost_time),
        qos_req := s.qos_req.map (fun _ => (s32 s.boost_freq)),
        trace := s.trace ++
          [(s.jiffies, Call.queue_work),
           (s.jiffies, Call.cancel_delayed_work_sync),
           (s.jiffies, Call.pm_qos_update_request (s32 s.boost_freq)),
           (s.jiffies, Call.printk "CFBoost: Input detected. Boosting for %ld msec"
              [s.boost_time]),
           (s.jiffies, Call.queue_delayed_work (K.msecs_to_jiffies s.boost_time))] } := by
  obtain ⟨j, bf, bt, wq, b, u, q, hd, tr⟩ := s
  simp only at hb
  subst hb
  simp [signal, cfb_input_event, queue_work, process_one_work, cfb_boost_eq, State.emit]

theorem elapse_idle (K : Kernel) (n : Nat) (s : State) (h : s.unboost = none) :
    elapse K n s = { s with jiffies := s.jiffies + n } := by
  obtain ⟨j, bf, bt, wq, b, u, q, hd, tr⟩ := s
  simp only at h
  subst h
  induction n with
  | zero => simp [elapse, run_timers]
  | succ n ih => simp [elapse, ih, tick, advance, run_timers, Nat.add_assoc]

theorem elapse_wait (K : Kernel) (n : Nat) (s : State) (d : Nat)
    (h : s.unboost = some d) (hd : s.jiffies + n < d) :
    elapse K n s = { s with jiffies := s.jiffies + n } := by
  obtain ⟨j, bf, bt, wq, b, u, q, hr, tr⟩ := s
  simp only at h hd
  subst h
  induction n with
  | zero =>
    have h0 : ¬ d ≤ j := by omega
    simp [elapse, run_timers, h0]
  | succ n ih =>
    have h2 : ¬ d ≤ j + (n + 1) := by omega
    simp [elapse, ih (by omega), tick, advance, run_timers, h2, Nat.add_assoc]

theorem elapse_fire (K : Kernel) (n : Nat) (s : State) (d : Nat)
    (h : s.unboost = some d) (hlo : s.jiffies ≤ d) (hhi : d ≤ s.jiffies + n) :
    elapse K n s =
      { s with
        jiffies := s.jiffies + n,
        unboost := none,
        qos_req := s.qos_req.map (fun _ => K.PM_QOS_DEFAULT_VALUE),
        trace := s.trace ++
          [(d, Call.printk "CFBoost: Unboosting now" []),
           (d, Call.pm_qos_update_request K.PM_QOS_DEFAULT_VALUE)] } := by
  induction n with
  | zero =>
    have hd : d = s.jiffies := by omega
    subst hd
    simp [elapse, run_timers, h, cfb_unboost_eq]
  | succ n ih =>
    by_cases hc : d ≤ s.jiffies + n
    · simp [elapse, ih hc, tick, advance, run_timers, Nat.add_assoc]
    · have hd : d = s.jiffies + (n + 1) := by omega
      simp [elapse, elapse_wait K n s d h (by omega), tick, advance, run_timers, h,
        cfb_unboost_eq, hd, Nat.add_assoc]

theorem qos_updates_append (l₁ l₂ : List (Nat × Call)) :
    qos_updates (l₁ ++ l₂) = qos_updates l₁ ++ qos_updates l₂ := by
  induction l₁ with
  | nil => simp [qos_updates]
  | cons e l ih =>
    obtain ⟨t, c⟩ := e
    cases c <;> simp [qos_updates, ih]

theorem log_lines_append (l₁ l₂ : List (Nat × Call)) :
    log_lines (l₁ ++ l₂) = log_lines l₁ ++ log_lines l₂ := by
  induction l₁ with
  | nil => simp [log_lines]
  | cons e l ih =>
    obtain ⟨t, c⟩ := e
    cases c <;> simp [log_lines, ih]

/-- The idle state that a successful `cfboost_init` leaves. -/
theorem cfboost_init_ok_eq (K : Kernel) (s : State) :
    cfboost_init K true 0 s =
      (0, { s with
            cfb_wq := true, boost := false, unboost := none,
            qos_req := some K.PM_QOS_DEFAULT_VALUE, handler := true,
            trace := s.trace ++
              [(s.jiffies, Call.create_workqueue "icfb-wq" true),
               (s.jiffies, Call.INIT_WORK),
               (s.jiffies, Call.INIT_DELAYED_WORK),
               (s.jiffies, Call.input_register_handler 0),
               (s.jiffies, Call.pm_qos_add_request K.PM_QOS_DEFAULT_VALUE)] }) := by
  simp [cfboost_init, create_workqueue, INIT_WORK, INIT_DELAYED_WORK,
    input_register_handler, pm_qos_add_request, State.emit]

/-! ## C1: refresh extends, never stacks -/

/-- C1.  Running `cfb_boost` at time `t` in any state with an unboost deadline
pending cancels that deadline and leaves the single deadline
`t + msecs_to_jiffies boost_time`, whatever the old one was; with a 1 ms tick
that is `t + boost_time`.  With a 1 ms tick and `boost_time = 500`, signals at t=0 and t=300 after a successful
`cfboost_init` keep the floor at `boost_freq` (as the `s32` it arrives as) at
every instant before t=800
(t=500 included), and at t=800 the floor is set back to the default: the
frequency updates are exactly those at 0, 300 and 800. -/
theorem refresh_extends_never_stacks (K : Kernel) :
    (∀ (s : State) (d : Nat), s.unboost = some d →
      (cfb_boost K s).unboost = some (s.jiffies + K.msecs_to_jiffies s.boost_time) ∧
      (cfb_boost K s).trace = s.trace ++
        [(s.jiffies, Call.cancel_delayed_work_sync),
         (s.jiffies, Call.pm_qos_update_request (s32 s.boost_freq)),
         (s.jiffies, Call.printk "CFBoost: Input detected. Boosting for %ld msec"
            [s.boost_time]),
         (s.jiffies, Call.queue_delayed_work (K.msecs_to_jiffies s.boost_time))]) ∧
    ((∀ m, K.msecs_to_jiffies m = m) → ∀ (s : State) (d : Nat), s.unboost = some d →
      (cfb_boost K s).unboost = some (s.jiffies + s.boost_time)) ∧
    (K.msecs_to_jiffies 500 = 500 →
      ∀ (boost_freq type code type2 code2 : Nat) (value value2 : Int),
        let s0 := (cfboost_init K true 0 (unloaded 0 boost_freq 500)).2
        let s1 := signal K s0 type code value
        let s2 := signal K (elapse K 300 s1) type2 code2 value2
        s1.unboost = some 500 ∧ s2.jiffies = 300 ∧ s2.unboost = some 800 ∧
        (∀ n, n < 500 →
          (elapse K n s2).jiffies = 300 + n ∧
          (elapse K n s2).qos_req = some (s32 boost_freq) ∧
          (elapse K n s2).unboost = some 800 ∧
          qos_updates (elapse K n s2).trace =
            [(0, (s32 boost_freq)), (300, (s32 boost_freq))]) ∧
        (∀ n, 500 ≤ n →
          (elapse K n s2).jiffies = 300 + n ∧
          (elapse K n s2).qos_req = some K.PM_QOS_DEFAULT_VALUE ∧
          (elapse K n s2).unboost = none ∧
          qos_updates (elapse K n s2).trace =
            [(0, (s32 boost_freq)), (300, (s32 boost_freq)),
             (800, K.PM_QOS_DEFAULT_VALUE)])) := by
  refine ⟨fun s d _ => by simp [cfb_boost_eq],
    fun hid s d _ => by simp [cfb_boost_eq, hid], ?_⟩
  intro hms bf ty co ty2 co2 v v2
  simp only [cfboost_init_ok_eq, unloaded]
  rw [signal_eq K _ ty co v rfl]
  simp only [hms]
  rw [elapse_wait K 300 _ 500 rfl (by simp)]
  rw [signal_eq K _ ty2 co2 v2 rfl]
  simp only [hms]
  refine ⟨by simp, by simp, by simp, ?_, ?_⟩
  · intro n hn
    rw [elapse_wait K n _ 800 (by simp) (by simp; omega)]
    simp [qos_updates, Nat.add_comm]
  · intro n hn
    rw [elapse_fire K n _ 800 (by simp) (by simp) (by simp; omega)]
    simp [qos_updates, Nat.add_comm]

/-- C1 at a concrete input: a 1 ms tick, the default parameters, checked at
t=500 and t=800. -/
theorem refresh_extends_never_stacks_witness :
    msKernel.msecs_to_jiffies 500 = 500 ∧
    (elapse msKernel 200 (signal msKernel (elapse msKernel 300
      (signal msKernel (cfboost_init msKernel true 0 (unloaded 0 1026000 500)).2 3 0 1))
      3 0 1)).qos_req = some 1026000 ∧
    qos_updates (elapse msKernel 500 (signal msKernel (elapse msKernel 300
      (signal msKernel (cfboost_init msKernel true 0 (unloaded 0 1026000 500)).2 3 0 1))
      3 0 1)).trace = [(0, 1026000), (300, 1026000), (800, -1)] :=
  ⟨rfl,
   (((refresh_extends_never_stacks msKernel).2.2 rfl 1026000 3 0 3 0 1 1).2.2.2.1
      200 (by decide)).2.1,
   (((refresh_extends_never_stacks msKernel).2.2 rfl 1026000 3 0 3 0 1 1).2.2.2.2
      500 (by decide)).2.2.2⟩

/-! ## C3: the concrete scenario with the default parameters -/

/-- C3.  With a 1 ms tick and the default parameters, the state after
`cfboost_init` is idle (floor at the default, nothing pending); one input
event at t=0 whose boost work runs sets the floor to 1026000 and arms the
unboost at t=500; the floor stays raised at every instant before t=500, and
from t=500 on the expiry has set it back to the default, nothing is pending,
and the only frequency updates are the raise at 0 and the restore at 500. -/
theorem default_scenario (K : Kernel) (hms : K.msecs_to_jiffies 500 = 500)
    (type code : Nat) (value : Int) :
    (loaded_default K).qos_req = some K.PM_QOS_DEFAULT_VALUE ∧
    (loaded_default K).boost = false ∧ (loaded_default K).unboost = none ∧
    (process_one_work K (cfb_input_event (loaded_default K) type code value)).qos_req
      = some 1026000 ∧
    (process_one_work K (cfb_input_event (loaded_default K) type code value)).unboost
      = some 500 ∧
    (process_one_work K (cfb_input_event (loaded_default K) type code value)).boost
      = false ∧
    (∀ n, n < 500 →
      (elapse K n (process_one_work K
        (cfb_input_event (loaded_default K) type code value))).qos_req = some 1026000) ∧
    (∀ n, 500 ≤ n →
      (elapse K n (process_one_work K
        (cfb_input_event (loaded_default K) type code value))).qos_req
          = some K.PM_QOS_DEFAULT_VALUE ∧
      (elapse K n (process_one_work K
        (cfb_input_event (loaded_default K) type code value))).unboost = none ∧
      (elapse K n (process_one_work K
        (cfb_input_event (loaded_default K) type code value))).boost = false ∧
      qos_updates (elapse K n (process_one_work K
        (cfb_input_event (loaded_default K) type code value))).trace
          = [(0, 1026000), (500, K.PM_QOS_DEFAULT_VALUE)]) := by
  have hs := signal_eq K (loaded_default K) type code value
    (by simp [loaded_default, cfboost_init_ok_eq])
  simp only [signal] at hs
  rw [hs]
  simp only [loaded_default, cfboost_init_ok_eq, unloaded, boost_freq_init,
    boost_time_init, hms, s32_boost_freq_init]
  refine ⟨by simp, by simp, by simp, by simp, by simp, by simp, ?_, ?_⟩
  · intro n hn
    rw [elapse_wait K n _ 500 (by simp) (by simp; omega)]
    simp
  · intro n hn
    rw [elapse_fire K n _ 500 (by simp) (by simp) (by simp; omega)]
    simp [qos_updates]

/-- C3 at a concrete input: a 1 ms tick and a touch event. -/
theorem default_scenario_witness :
    msKernel.msecs_to_jiffies 500 = 500 ∧
    (process_one_work msKernel (cfb_input_event (loaded_default msKernel) 3 0 1)).unboost
      = some 500 ∧
    (elapse msKernel 500 (process_one_work msKernel
      (cfb_input_event (loaded_default msKernel) 3 0 1))).qos_req = some (-1) :=
  ⟨rfl, (default_scenario msKernel rfl 3 0 1).2.2.2.2.1,
   ((default_scenario msKernel rfl 3 0 1).2.2.2.2.2.2.2 500 (by decide)).1⟩

/-! ## C2: one restore per burst, one raise per signal -/

/-- A burst that starts right after a signal: every further signal finds the
deadline still pending, raises the floor again and re-arms the deadline. -/
theorem burst_armed (K : Kernel) (sigs : List Signal) :
    ∀ (s : State) (q : Option Int), s.boost = false →
      s.unboost = some (s.jiffies + K.msecs_to_jiffies s.boost_time) →
      s.qos_req = q.map (fun _ => (s32 s.boost_freq)) →
      (∀ e ∈ sigs, e.gap < K.msecs_to_jiffies s.boost_time) →
      (burst K sigs s).jiffies = last_signal s.jiffies sigs ∧
      (burst K sigs s).boost = false ∧
      (burst K sigs s).unboost
        = some (last_signal s.jiffies sigs + K.msecs_to_jiffies s.boost_time) ∧
      (burst K sigs s).boost_freq = s.boost_freq ∧
      (burst K sigs s).boost_time = s.boost_time ∧
      (burst K sigs s).qos_req = q.map (fun _ => (s32 s.boost_freq)) ∧
      qos_updates (burst K sigs s).trace = qos_updates s.trace ++
        (signal_times s.jiffies sigs).map (fun t => (t, (s32 s.boost_freq))) ∧
      log_lines (burst K sigs s).trace = log_lines s.trace ++
        (signal_times s.jiffies sigs).map
          (fun t => (t, "CFBoost: Input detected. Boosting for %ld msec")) := by
  induction sigs with
  | nil =>
    intro s q hb hu hq _
    simp [burst, last_signal, signal_times, hb, hu, hq]
  | cons e es ih =>
    intro s q hb hu hq hg
    have hgap : e.gap < K.msecs_to_jiffies s.boost_time := hg e (by simp)
    have hrest : ∀ x ∈ es, x.gap < K.msecs_to_jiffies s.boost_time :=
      fun x hx => hg x (by simp [hx])
    simp only [burst, last_signal, signal_times]
    rw [elapse_wait K e.gap s _ hu (by omega)]
    rw [signal_eq K _ e.type e.code e.value (by simpa using hb)]
    have h := ih
      { s with
        jiffies := s.jiffies + e.gap,
        unboost := some (s.jiffies + e.gap + K.msecs_to_jiffies s.boost_time),
        qos_req := s.qos_req.map (fun _ => (s32 s.boost_freq)),
        trace := s.trace ++
          [(s.jiffies + e.gap, Call.queue_work),
           (s.jiffies + e.gap, Call.cancel_delayed_work_sync),
           (s.jiffies + e.gap, Call.pm_qos_update_request (s32 s.boost_freq)),
           (s.jiffies + e.gap,
             Call.printk "CFBoost: Input detected. Boosting for %ld msec" [s.boost_time]),
           (s.jiffies + e.gap,
             Call.queue_delayed_work (K.msecs_to_jiffies s.boost_time))] }
      q hb rfl (by cases q <;> simp [hq]) hrest
    simp only [qos_updates_append, log_lines_append] at h
    simpa [qos_updates, log_lines] using h

/-- A burst that starts in an idle state, followed from its last signal on. -/
theorem burst_idle (K : Kernel) (s : State) (e : Signal) (es : List Signal)
    (hb : s.boost = false) (hu : s.unboost = none)
    (hg : ∀ x ∈ es, x.gap < K.msecs_to_jiffies s.boost_time) :
    (∀ n, n < K.msecs_to_jiffies s.boost_time →
      (elapse K n (burst K (e :: es) s)).qos_req
        = s.qos_req.map (fun _ => (s32 s.boost_freq)) ∧
      qos_updates (elapse K n (burst K (e :: es) s)).trace = qos_updates s.trace ++
        (signal_times s.jiffies (e :: es)).map (fun t => (t, (s32 s.boost_freq))) ∧
      log_lines (elapse K n (burst K (e :: es) s)).trace = log_lines s.trace ++
        (signal_times s.jiffies (e :: es)).map
          (fun t => (t, "CFBoost: Input detected. Boosting for %ld msec"))) ∧
    (∀ n, K.msecs_to_jiffies s.boost_time ≤ n →
      (elapse K n (burst K (e :: es) s)).qos_req
        = s.qos_req.map (fun _ => K.PM_QOS_DEFAULT_VALUE) ∧
      (elapse K n (burst K (e :: es) s)).unboost = none ∧
      (elapse K n (burst K (e :: es) s)).boost = false ∧
      qos_updates (elapse K n (burst K (e :: es) s)).trace = qos_updates s.trace ++
        (signal_times s.jiffies (e :: es)).map (fun t => (t, (s32 s.boost_freq))) ++
        [(last_signal s.jiffies (e :: es) + K.msecs_to_jiffies s.boost_time,
          K.PM_QOS_DEFAULT_VALUE)] ∧
      log_lines (elapse K n (burst K (e :: es) s)).trace = log_lines s.trace ++
        (signal_times s.jiffies (e :: es)).map
          (fun t => (t, "CFBoost: Input detected. Boosting for %ld msec")) ++
        [(last_signal s.jiffies (e :: es) + K.msecs_to_jiffies s.boost_time,
          "CFBoost: Unboosting now")]) := by
  simp only [burst, last_signal, signal_times]
  rw [elapse_idle K e.gap s hu]
  rw [signal_eq K _ e.type e.code e.value (by simpa using hb)]
  obtain ⟨hj, hbo, hun, hbf, hbt, hq, htr, hlog⟩ := burst_armed K es
    { s with
      jiffies := s.jiffies + e.gap,
      unboost := some (s.jiffies + e.gap + K.msecs_to_jiffies s.boost_time),
      qos_req := s.qos_req.map (fun _ => (s32 s.boost_freq)),
      trace := s.trace ++
        [(s.jiffies + e.gap, Call.queue_work),
         (s.jiffies + e.gap, Call.cancel_delayed_work_sync),
         (s.jiffies + e.gap, Call.pm_qos_update_request (s32 s.boost_freq)),
         (s.jiffies + e.gap,
           Call.printk "CFBoost: Input detected. Boosting for %ld msec" [s.boost_time]),
         (s.jiffies + e.gap,
           Call.queue_delayed_work (K.msecs_to_jiffies s.boost_time))] }
    s.qos_req hb rfl rfl hg
  simp only [qos_updates_append] at htr
  simp only [log_lines_append] at hlog
  simp only at hj hbo hun hbf hbt hq
  constructor
  · intro n hn
    rw [elapse_wait K n _ _ hun (by omega)]
    simp only [hq, htr, hlog]
    simp [qos_updates, log_lines]
  · intro n hn
    rw [elapse_fire K n _ _ hun (by omega) (by omega)]
    simp only [hq, htr, hlog, hbo, qos_updates_append, log_lines_append]
    cases s.qos_req <;> simp [qos_updates, log_lines]

theorem signal_times_length (t : Nat) (sigs : List Signal) :
    (signal_times t sigs).length = sigs.length := by
  induction sigs generalizing t with
  | nil => simp [signal_times]
  | cons e es ih => simp [signal_times, ih]

theorem countP_stamped (v w : Int) (ts : List Nat) :
    (ts.map (fun t => (t, w))).countP (fun e => decide (e.2 = v))
      = if w = v then ts.length else 0 := by
  induction ts with
  | nil => simp
  | cons t ts ih =>
    by_cases h : w = v
    · simp [h] at ih ⊢
    · simp [h] at ih ⊢

/-- C2, as the code has it.  For every burst of N ≥ 1 activity signals that
starts in an idle state, each signal's boost work running at once and each
further signal less than `msecs_to_jiffies boost_time` after the one before:
`cfb_boost` calls `pm_qos_update_request` with `boost_freq` (as the `s32` it
arrives as) once per signal, at the instants of the signals, and logs its
line once per signal; then one call sets the floor back to the default and one
unboost line is logged, `msecs_to_jiffies boost_time` after the last signal
and not before; after it nothing is pending.  When the value `boost_freq`
arrives as is not the default itself, that is N calls with it and exactly one
call with the default. -/
theorem burst_raise_per_signal_restore_once (K : Kernel) (s : State) (e : Signal)
    (es : List Signal) (hb : s.boost = false) (hu : s.unboost = none)
    (hg : ∀ x ∈ es, x.gap < K.msecs_to_jiffies s.boost_time)
    (n : Nat) (hn : K.msecs_to_jiffies s.boost_time ≤ n) :
    qos_updates (elapse K n (burst K (e :: es) s)).trace = qos_updates s.trace ++
      (signal_times s.jiffies (e :: es)).map (fun t => (t, (s32 s.boost_freq))) ++
      [(last_signal s.jiffies (e :: es) + K.msecs_to_jiffies s.boost_time,
        K.PM_QOS_DEFAULT_VALUE)] ∧
    log_lines (elapse K n (burst K (e :: es) s)).trace = log_lines s.trace ++
      (signal_times s.jiffies (e :: es)).map
        (fun t => (t, "CFBoost: Input detected. Boosting for %ld msec")) ++
      [(last_signal s.jiffies (e :: es) + K.msecs_to_jiffies s.boost_time,
        "CFBoost: Unboosting now")] ∧
    (signal_times s.jiffies (e :: es)).length = (e :: es).length ∧
    (s32 s.boost_freq ≠ K.PM_QOS_DEFAULT_VALUE →
      update_count (s32 s.boost_freq) (elapse K n (burst K (e :: es) s)).trace
        = update_count (s32 s.boost_freq) s.trace + (e :: es).length ∧
      update_count K.PM_QOS_DEFAULT_VALUE (elapse K n (burst K (e :: es) s)).trace
        = update_count K.PM_QOS_DEFAULT_VALUE s.trace + 1) ∧
    (elapse K n (burst K (e :: es) s)).qos_req
      = s.qos_req.map (fun _ => K.PM_QOS_DEFAULT_VALUE) ∧
    (elapse K n (burst K (e :: es) s)).unboost = none ∧
    (elapse K n (burst K (e :: es) s)).boost = false ∧
    (∀ m, m < K.msecs_to_jiffies s.boost_time →
      (elapse K m (burst K (e :: es) s)).qos_req
        = s.qos_req.map (fun _ => (s32 s.boost_freq)) ∧
      qos_updates (elapse K m (burst K (e :: es) s)).trace = qos_updates s.trace ++
        (signal_times s.jiffies (e :: es)).map (fun t => (t, (s32 s.boost_freq))) ∧
      log_lines (elapse K m (burst K (e :: es) s)).trace = log_lines s.trace ++
        (signal_times s.jiffies (e :: es)).map
          (fun t => (t, "CFBoost: Input detected. Boosting for %ld msec"))) := by
  obtain ⟨hbefore, hafter⟩ := burst_idle K s e es hb hu hg
  obtain ⟨hq, hun, hbo, htr, hlog⟩ := hafter n hn
  refine ⟨htr, hlog, signal_times_length _ _, ?_, hq, hun, hbo, hbefore⟩
  intro hne
  have hne2 : ¬ K.PM_QOS_DEFAULT_VALUE = (s32 s.boost_freq) := fun h => hne h.symm
  constructor
  · simp only [update_count, htr, List.countP_append, countP_stamped,
      signal_times_length]
    simp [hne2]
  · simp only [update_count, htr, List.countP_append, countP_stamped,
      signal_times_length]
    simp [hne]

/-- C2 at a concrete input: two signals 300 ms apart with the default
parameters and a 1 ms tick. -/
theorem burst_raise_per_signal_restore_once_witness :
    update_count 1026000 (elapse msKernel 500 (burst msKernel
      [⟨0, 3, 0, 1⟩, ⟨300, 3, 0, 1⟩] (loaded_default msKernel))).trace
      = update_count 1026000 (loaded_default msKernel).trace + 2 ∧
    update_count (-1) (elapse msKernel 500 (burst msKernel
      [⟨0, 3, 0, 1⟩, ⟨300, 3, 0, 1⟩] (loaded_default msKernel))).trace
      = update_count (-1) (loaded_default msKernel).trace + 1 :=
  (burst_raise_per_signal_restore_once msKernel (loaded_default msKernel)
      ⟨0, 3, 0, 1⟩ [⟨300, 3, 0, 1⟩] rfl rfl (by decide) 500 (by decide)).2.2.2.1
    (by decide)

/-- C2 as stated fails: in a burst of two signals 300 ms apart (default
parameters, 1 ms tick) the floor is raised twice, at t=0 and again at t=300,
not once, and the boost line is logged twice. -/
theorem burst_of_two_raises_twice :
    qos_updates (elapse msKernel 500 (burst msKernel
      [⟨0, 3, 0, 1⟩, ⟨300, 3, 0, 1⟩] (loaded_default msKernel))).trace
      = [(0, 1026000), (300, 1026000), (800, -1)] ∧
    ¬ (update_count 1026000 (elapse msKernel 500 (burst msKernel
      [⟨0, 3, 0, 1⟩, ⟨300, 3, 0, 1⟩] (loaded_default msKernel))).trace = 1) ∧
    log_lines (elapse msKernel 500 (burst msKernel
      [⟨0, 3, 0, 1⟩, ⟨300, 3, 0, 1⟩] (loaded_default msKernel))).trace
      = [(0, "CFBoost: Input detected. Boosting for %ld msec"),
         (300, "CFBoost: Input detected. Boosting for %ld msec"),
         (800, "CFBoost: Unboosting now")] := by
  have h := ((burst_idle msKernel (loaded_default msKernel) ⟨0, 3, 0, 1⟩
    [⟨300, 3, 0, 1⟩] rfl rfl (by decide)).2 500 (by decide)).2.2.2
  have h2 : qos_updates (elapse msKernel 500 (burst msKernel
      [⟨0, 3, 0, 1⟩, ⟨300, 3, 0, 1⟩] (loaded_default msKernel))).trace
      = [(0, 1026000), (300, 1026000), (800, -1)] := by
    rw [h.1]
    decide
  refine ⟨h2, ?_, ?_⟩
  · rw [update_count, h2]
    decide
  · rw [h.2]
    decide

/-! ## C4: no duplicate scheduling under pending work -/

theorem queued_append (l₁ l₂ : List (Nat × Call)) :
    queued (l₁ ++ l₂) = queued l₁ + queued l₂ := by
  simp [queued, List.countP_append]

theorem boost_runs_append (l₁ l₂ : List (Nat × Call)) :
    boost_runs (l₁ ++ l₂) = boost_runs l₁ + boost_runs l₂ := by
  simp [boost_runs, List.countP_append]

/-- Every atomic step keeps the account: `queue_work` calls made equal
executions of `cfb_boost` plus the one work item that may be pending. -/
theorem step_account (K : Kernel) (a : Action) (s : State) :
    queued (step K a s).trace + boost_runs s.trace + pending_count s
      = queued s.trace + boost_runs (step K a s).trace + pending_count (step K a s) := by
  obtain ⟨j, bf, bt, wq, b, u, q, hd, tr⟩ := s
  cases a with
  | input type code value =>
    cases b <;> cases hd
    all_goals
      simp [step, input_pass_event, cfb_input_event, queue_work, State.emit,
        pending_count, queued_append, queued, boost_runs]
    omega
  | work =>
    cases b
    · simp [step, process_one_work, pending_count]
    · simp [step, process_one_work, cfb_boost_eq, pending_count, queued_append,
        boost_runs_append, queued, boost_runs]
      omega
  | expire =>
    cases u with
    | none => simp [step, run_timers]
    | some d =>
      by_cases h : d ≤ j
      · simp [step, run_timers, h, cfb_unboost_eq, pending_count, queued_append,
          boost_runs_append, queued, boost_runs]
      · simp [step, run_timers, h]
  | advance => simp [step, advance, pending_count]
  | set_boost_freq v => simp [step, pending_count]
  | set_boost_time v => simp [step, pending_count]

theorem run_account (K : Kernel) (acts : List Action) :
    ∀ s : State,
      queued (run K acts s).trace + boost_runs s.trace + pending_count s
        = queued s.trace + boost_runs (run K acts s).trace
          + pending_count (run K acts s) := by
  induction acts with
  | nil => intro s; simp [run]
  | cons a as ih =>
    intro s
    have h1 := step_account K a s
    have h2 := ih (step K a s)
    simp only [run]
    omega

/-- C4.  `cfb_input_event` queues the boost work exactly when it is not
pending (the pending bit is set and one `queue_work` call is made) and changes
nothing when it is; the result is the same for every event type, code and
value; and along every sequence of input events, worker runs, timer expiries,
clock ticks and parameter writes, the `queue_work` calls made are the
executions of `cfb_boost` plus at most one work item still pending. -/
theorem input_event_queues_unless_pending (s : State) (type code : Nat) (value : Int) :
    (s.boost = false → cfb_input_event s type code value
      = { s with boost := true, trace := s.trace ++ [(s.jiffies, Call.queue_work)] }) ∧
    (s.boost = true → cfb_input_event s type code value = s) ∧
    (queued (cfb_input_event s type code value).trace = queued s.trace + 1
      ↔ s.boost = false) ∧
    (cfb_input_event s type code value).boost = true ∧
    (∀ (type2 code2 : Nat) (value2 : Int),
      cfb_input_event s type code value = cfb_input_event s type2 code2 value2) ∧
    (∀ (K : Kernel) (acts : List Action),
      pending_count (run K acts s) ≤ 1 ∧
      queued (run K acts s).trace + boost_runs s.trace + pending_count s
        = queued s.trace + boost_runs (run K acts s).trace
          + pending_count (run K acts s)) := by
  obtain ⟨j, bf, bt, wq, b, u, q, hd, tr⟩ := s
  refine ⟨?_, ?_, ?_, ?_, ?_, ?_⟩
  · intro h
    simp only at h
    subst h
    simp [cfb_input_event, queue_work, State.emit]
  · intro h
    simp only at h
    subst h
    simp [cfb_input_event]
  · cases b <;> simp [cfb_input_event, queue_work, State.emit, queued_append, queued]
  · cases b <;> simp [cfb_input_event, queue_work, State.emit]
  · intro type2 code2 value2
    rfl
  · intro K acts
    refine ⟨?_, run_account K acts _⟩
    unfold pending_count
    split <;> omega

/-- C4 at concrete inputs: an event in the idle state queues the work, a
second event while it is pending changes nothing. -/
theorem input_event_queues_unless_pending_witness :
    (cfb_input_event (loaded_default msKernel) 3 0 1).boost = true ∧
    cfb_input_event (cfb_input_event (loaded_default msKernel) 3 0 1) 2 1 (-4)
      = cfb_input_event (loaded_default msKernel) 3 0 1 :=
  ⟨(input_event_queues_unless_pending (loaded_default msKernel) 3 0 1).2.2.2.1,
   (input_event_queues_unless_pending
      (cfb_input_event (loaded_default msKernel) 3 0 1) 2 1 (-4)).2.1
     ((input_event_queues_unless_pending (loaded_default msKernel) 3 0 1).2.2.2.1)⟩

/-! ## C5: what `cfboost_exit` does while boosting -/

theorem cfboost_exit_eq (s : State) :
    cfboost_exit s =
      { s with
        cfb_wq := false, boost := false, unboost := none, qos_req := none,
        handler := false,
        trace := s.trace ++
          [(s.jiffies, Call.input_unregister_handler),
           (s.jiffies, Call.cancel_work_sync),
           (s.jiffies, Call.cancel_delayed_work_sync),
           (s.jiffies, Call.destroy_workqueue),
           (s.jiffies, Call.pm_qos_remove_request)] } := by
  simp [cfboost_exit, input_unregister_handler, cancel_work_sync,
    cancel_delayed_work_sync, destroy_workqueue, pm_qos_remove_request, State.emit]

/-- C5, as the code has it.  In every state in which the module is boosting
(the request holds a value, the one `boost_freq` arrived as or any other, and
an unboost deadline is pending, however far away), `cfboost_exit` makes exactly five kernel calls: it unregisters the
handler, cancels the boost work, cancels the pending deadline, destroys the
workqueue and removes the QoS request.  It does not run the restore action:
no `pm_qos_update_request` call is made and no log line is emitted; the
request is taken off the constraint list instead of being set to the default.
After it returns no boost work and no unboost deadline is pending. -/
theorem exit_cancels_and_removes (s : State) (v : Int) (d : Nat)
    (hq : s.qos_req = some v) (hu : s.unboost = some d) :
    (cfboost_exit s).trace = s.trace ++
      [(s.jiffies, Call.input_unregister_handler),
       (s.jiffies, Call.cancel_work_sync),
       (s.jiffies, Call.cancel_delayed_work_sync),
       (s.jiffies, Call.destroy_workqueue),
       (s.jiffies, Call.pm_qos_remove_request)] ∧
    qos_updates (cfboost_exit s).trace = qos_updates s.trace ∧
    log_lines (cfboost_exit s).trace = log_lines s.trace ∧
    (cfboost_exit s).qos_req = none ∧
    (cfboost_exit s).unboost = none ∧
    (cfboost_exit s).boost = false ∧
    (cfboost_exit s).handler = false ∧
    (cfboost_exit s).cfb_wq = false := by
  simp [cfboost_exit_eq, qos_updates_append, log_lines_append, qos_updates, log_lines]

/-- C5 at a concrete input: exit right after the first boost, with the whole
500 ms still to run. -/
theorem exit_cancels_and_removes_witness :
    (cfboost_exit (signal msKernel (loaded_default msKernel) 3 0 1)).qos_req = none ∧
    (cfboost_exit (signal msKernel (loaded_default msKernel) 3 0 1)).unboost = none :=
  ⟨(exit_cancels_and_removes (signal msKernel (loaded_default msKernel) 3 0 1)
      1026000 500 (by decide) (by decide)).2.2.2.1,
   (exit_cancels_and_removes (signal msKernel (loaded_default msKernel) 3 0 1)
      1026000 500 (by decide) (by decide)).2.2.2.2.1⟩

/-- C5 as stated fails: exiting right after a boost (default parameters), the
floor is not set back to `PM_QOS_DEFAULT_VALUE`: no `pm_qos_update_request`
with the default is made and no unboost line is logged; the request that
held 1026000 is removed. -/
theorem exit_does_not_restore :
    (signal msKernel (loaded_default msKernel) 3 0 1).qos_req = some 1026000 ∧
    (signal msKernel (loaded_default msKernel) 3 0 1).unboost = some 500 ∧
    (cfboost_exit (signal msKernel (loaded_default msKernel) 3 0 1)).qos_req
      ≠ some msKernel.PM_QOS_DEFAULT_VALUE ∧
    update_count msKernel.PM_QOS_DEFAULT_VALUE
      (cfboost_exit (signal msKernel (loaded_default msKernel) 3 0 1)).trace = 0 ∧
    log_lines (cfboost_exit (signal msKernel (loaded_default msKernel) 3 0 1)).trace
      = [(0, "CFBoost: Input detected. Boosting for %ld msec")] := by
  decide

/-! ## C6: `cfboost_init` -/

/-- C6.  `cfboost_init` returns 0 exactly when the workqueue is created and
the handler registration returns 0, and then the workqueue exists, the handler
is registered and the request is added with `PM_QOS_DEFAULT_VALUE`.  When the
workqueue cannot be created it returns `-ENOMEM` having made no other call.
When registration returns `ret ≠ 0` it returns `ret`; its last call is
`destroy_workqueue`, the workqueue is gone, the handler is not registered and
`pm_qos_add_request` is never called. -/
theorem init_all_or_nothing (K : Kernel) (hE : K.ENOMEM ≠ 0) (wq_ok : Bool)
    (reg_ret : Int) (s : State) :
    ((cfboost_init K wq_ok reg_ret s).1 = 0 ↔ (wq_ok = true ∧ reg_ret = 0)) ∧
    (wq_ok = true → reg_ret = 0 →
      (cfboost_init K wq_ok reg_ret s).2 =
        { s with
          cfb_wq := true, boost := false, unboost := none,
          qos_req := some K.PM_QOS_DEFAULT_VALUE, handler := true,
          trace := s.trace ++
            [(s.jiffies, Call.create_workqueue "icfb-wq" true),
             (s.jiffies, Call.INIT_WORK),
             (s.jiffies, Call.INIT_DELAYED_WORK),
             (s.jiffies, Call.input_register_handler 0),
             (s.jiffies, Call.pm_qos_add_request K.PM_QOS_DEFAULT_VALUE)] }) ∧
    (wq_ok = false →
      cfboost_init K wq_ok reg_ret s =
        (-K.ENOMEM,
          { s with
            cfb_wq := false,
            trace := s.trace ++ [(s.jiffies, Call.create_workqueue "icfb-wq" false)] })) ∧
    (wq_ok = true → reg_ret ≠ 0 →
      cfboost_init K wq_ok reg_ret s =
        (reg_ret,
          { s with
            cfb_wq := false, boost := false, unboost := none,
            trace := s.trace ++
              [(s.jiffies, Call.create_workqueue "icfb-wq" true),
               (s.jiffies, Call.INIT_WORK),
               (s.jiffies, Call.INIT_DELAYED_WORK),
               (s.jiffies, Call.input_register_handler reg_ret),
               (s.jiffies, Call.destroy_workqueue)] })) := by
  refine ⟨?_, ?_, ?_, ?_⟩
  · cases wq_ok
    · simp [cfboost_init, create_workqueue, State.emit, hE]
    · by_cases hr : reg_ret = 0
      · simp [cfboost_init, create_workqueue, State.emit, hr]
      · simp [cfboost_init, create_workqueue, State.emit, hr]
  · intro hw hr
    subst hw hr
    simp [cfboost_init_ok_eq]
  · intro hw
    subst hw
    simp [cfboost_init, create_workqueue, State.emit]
  · intro hw hr
    subst hw
    simp [cfboost_init, create_workqueue, INIT_WORK, INIT_DELAYED_WORK,
      input_register_handler, destroy_workqueue, State.emit, hr]

/-- C6 at concrete inputs: registration failing with -16 on an unloaded
module, `ENOMEM = 12`. -/
theorem init_all_or_nothing_witness :
    msKernel.ENOMEM ≠ 0 ∧
    (cfboost_init msKernel true (-16) (unloaded 0 1026000 500)).1 = -16 ∧
    (cfboost_init msKernel true (-16) (unloaded 0 1026000 500)).2.cfb_wq = false ∧
    (cfboost_init msKernel true (-16) (unloaded 0 1026000 500)).2.qos_req = none :=
  ⟨by decide,
   by rw [(init_all_or_nothing msKernel (by decide) true (-16)
        (unloaded 0 1026000 500)).2.2.2 rfl (by decide)],
   by rw [(init_all_or_nothing msKernel (by decide) true (-16)
        (unloaded 0 1026000 500)).2.2.2 rfl (by decide)],
   by rw [(init_all_or_nothing msKernel (by decide) true (-16)
        (unloaded 0 1026000 500)).2.2.2 rfl (by decide)]; rfl⟩

/-! ## C7: running the restore action when idle -/

/-- C7, as the code has it.  In every idle state (floor at the default, no
deadline pending) `cfb_unboost` leaves the floor at the default and makes
nothing pending: every field but the trace is unchanged.  Each run does emit
one log line and one `pm_qos_update_request` with the default, so two runs
leave the same floor and pending state as one but two log lines and two
update calls. -/
theorem unboost_when_idle (K : Kernel) (s : State)
    (hq : s.qos_req = some K.PM_QOS_DEFAULT_VALUE) (hu : s.unboost = none) :
    cfb_unboost K s =
      { s with
        trace := s.trace ++
          [(s.jiffies, Call.printk "CFBoost: Unboosting now" []),
           (s.jiffies, Call.pm_qos_update_request K.PM_QOS_DEFAULT_VALUE)] } ∧
    (cfb_unboost K s).qos_req = some K.PM_QOS_DEFAULT_VALUE ∧
    (cfb_unboost K s).unboost = none ∧
    (cfb_unboost K s).boost = s.boost ∧
    log_lines (cfb_unboost K s).trace
      = log_lines s.trace ++ [(s.jiffies, "CFBoost: Unboosting now")] ∧
    cfb_unboost K (cfb_unboost K s) =
      { cfb_unboost K s with
        trace := (cfb_unboost K s).trace ++
          [(s.jiffies, Call.printk "CFBoost: Unboosting now" []),
           (s.jiffies, Call.pm_qos_update_request K.PM_QOS_DEFAULT_VALUE)] } ∧
    log_lines (cfb_unboost K (cfb_unboost K s)).trace
      = log_lines s.trace ++ [(s.jiffies, "CFBoost: Unboosting now"),
          (s.jiffies, "CFBoost: Unboosting now")] := by
  obtain ⟨j, bf, bt, wq, b, u, q, hd, tr⟩ := s
  simp only at hq hu
  subst hq hu
  simp [cfb_unboost_eq, log_lines_append, log_lines]

/-- C7 at a concrete input: the idle state after `cfboost_init`. -/
theorem unboost_when_idle_witness :
    (cfb_unboost msKernel (loaded_default msKernel)).qos_req = some (-1) ∧
    (cfb_unboost msKernel (loaded_default msKernel)).unboost = none :=
  ⟨(unboost_when_idle msKernel (loaded_default msKernel) (by decide) (by decide)).2.1,
   (unboost_when_idle msKernel (loaded_default msKernel) (by decide) (by decide)).2.2.1⟩

/-- C7 as stated fails: in the idle state after `cfboost_init`, running
`cfb_unboost` has an observable effect, a log line, and running it twice
emits a second, duplicate one, so twice is not the same as once. -/
theorem unboost_when_idle_logs :
    (loaded_default msKernel).qos_req = some msKernel.PM_QOS_DEFAULT_VALUE ∧
    (loaded_default msKernel).unboost = none ∧
    log_lines (loaded_default msKernel).trace = [] ∧
    log_lines (cfb_unboost msKernel (loaded_default msKernel)).trace
      = [(0, "CFBoost: Unboosting now")] ∧
    log_lines (cfb_unboost msKernel (cfb_unboost msKernel (loaded_default msKernel))).trace
      = [(0, "CFBoost: Unboosting now"), (0, "CFBoost: Unboosting now")] ∧
    cfb_unboost msKernel (cfb_unboost msKernel (loaded_default msKernel))
      ≠ cfb_unboost msKernel (loaded_default msKernel) := by
  decide

/-! ## C9: a raised floor always has its deadline -/

theorem run_append (K : Kernel) (as bs : List Action) :
    ∀ s : State, run K (as ++ bs) s = run K bs (run K as s) := by
  induction as with
  | nil => intro s; rfl
  | cons a as ih => intro s; simp [run, ih]

/-- What one atomic step can do to the floor of an added request: the worker
runs a pending `cfb_boost`, which writes `boost_freq` and arms the deadline;
or the floor ends at the default; or floor and deadline are untouched. -/
theorem step_floor (K : Kernel) (a : Action) (s : State) (v : Int)
    (h : s.qos_req = some v) :
    (a = Action.work ∧ s.boost = true ∧
      (step K a s).qos_req = some (s32 s.boost_freq) ∧
      ∃ d, (step K a s).unboost = some d) ∨
    (step K a s).qos_req = some K.PM_QOS_DEFAULT_VALUE ∨
    ((step K a s).qos_req = s.qos_req ∧ (step K a s).unboost = s.unboost) := by
  obtain ⟨j, bf, bt, wq, b, u, q, hd, tr⟩ := s
  simp only at h
  subst h
  cases a with
  | input type code value =>
    right; right
    cases b <;> cases hd <;>
      simp [step, input_pass_event, cfb_input_event, queue_work, State.emit]
  | work =>
    cases b
    · right; right
      simp [step, process_one_work]
    · left
      simp [step, process_one_work, cfb_boost_eq]
  | expire =>
    cases u with
    | none => right; right; simp [step, run_timers]
    | some d =>
      by_cases hdue : d ≤ j
      · right; left
        simp [step, run_timers, hdue, cfb_unboost_eq]
      · right; right
        simp [step, run_timers, hdue]
  | advance => right; right; simp [step, advance]
  | set_boost_freq w => right; right; simp [step]
  | set_boost_time w => right; right; simp [step]

/-- The invariant behind C9, from any state whose request is added and holds
the default; the value `cfb_boost` wrote is `boost_freq` as it arrives in the
`s32` parameter. -/
theorem run_floor (K : Kernel) (s0 : State)
    (h0 : s0.qos_req = some K.PM_QOS_DEFAULT_VALUE) (acts : List Action) :
    (∃ v, (run K acts s0).qos_req = some v) ∧
    ((run K acts s0).qos_req = some K.PM_QOS_DEFAULT_VALUE ∨
      ∃ pre post, acts = pre ++ Action.work :: post ∧ (run K pre s0).boost = true ∧
        (run K acts s0).qos_req = some (s32 (run K pre s0).boost_freq)) ∧
    ((run K acts s0).qos_req ≠ some K.PM_QOS_DEFAULT_VALUE →
      ∃ d, (run K acts s0).unboost = some d) := by
  induction acts using List.reverseRecOn with
  | nil => exact ⟨⟨_, h0⟩, Or.inl h0, fun h => absurd h0 h⟩
  | append_singleton as a ih =>
    obtain ⟨⟨v, hv⟩, hval, hdl⟩ := ih
    have hrun : run K (as ++ [a]) s0 = step K a (run K as s0) := by
      rw [run_append]; rfl
    rw [hrun]
    rcases step_floor K a (run K as s0) v hv with
      ⟨ha, hb, hq, hd⟩ | hq | ⟨hq, hu⟩
    · refine ⟨⟨_, hq⟩, Or.inr ⟨as, [], ?_, hb, hq⟩, fun _ => hd⟩
      rw [ha]
    · exact ⟨⟨_, hq⟩, Or.inl hq, fun h => absurd hq h⟩
    · refine ⟨⟨v, by rw [hq, hv]⟩, ?_, ?_⟩
      · rcases hval with hdef | ⟨pre, post, hsplit, hb, hval⟩
        · exact Or.inl (by rw [hq, hdef])
        · refine Or.inr ⟨pre, post ++ [a], ?_, hb, by rw [hq, hval]⟩
          rw [hsplit]; simp
      · intro hne
        rw [hu]
        exact hdl (by rw [← hq]; exact hne)

/-- C9, as the code has it.  In every state reached from the state after a
successful `cfboost_init` by input events, worker runs, timer expiries, clock
ticks and writes to `boost_freq` and `boost_time`, in any order: the request
is still added; its value is `PM_QOS_DEFAULT_VALUE`, or it is what the value
`boost_freq` had, at an earlier step at which the worker ran the pending
`cfb_boost`, arrives as in the `s32` parameter: that value itself when it is
below 2^31, that value less 2^32 when it is from 2^31 up to 2^32; and whenever
the request's value is not the default an unboost deadline is pending. -/
theorem floor_never_leaks (K : Kernel) (now boost_freq boost_time : Nat)
    (acts : List Action) :
    (∃ v, (run K acts (cfboost_init K true 0
      (unloaded now boost_freq boost_time)).2).qos_req = some v) ∧
    ((run K acts (cfboost_init K true 0
        (unloaded now boost_freq boost_time)).2).qos_req = some K.PM_QOS_DEFAULT_VALUE ∨
      ∃ pre post, acts = pre ++ Action.work :: post ∧
        (run K pre (cfboost_init K true 0
          (unloaded now boost_freq boost_time)).2).boost = true ∧
        (run K acts (cfboost_init K true 0
          (unloaded now boost_freq boost_time)).2).qos_req
          = some (s32 (run K pre (cfboost_init K true 0
              (unloaded now boost_freq boost_time)).2).boost_freq) ∧
        ((run K pre (cfboost_init K true 0
            (unloaded now boost_freq boost_time)).2).boost_freq < 2147483648 →
          (run K acts (cfboost_init K true 0
            (unloaded now boost_freq boost_time)).2).qos_req
            = some (((run K pre (cfboost_init K true 0
                (unloaded now boost_freq boost_time)).2).boost_freq : Nat) : Int)) ∧
        (2147483648 ≤ (run K pre (cfboost_init K true 0
            (unloaded now boost_freq boost_time)).2).boost_freq →
          (run K pre (cfboost_init K true 0
            (unloaded now boost_freq boost_time)).2).boost_freq < 4294967296 →
          (run K acts (cfboost_init K true 0
            (unloaded now boost_freq boost_time)).2).qos_req
            = some ((((run K pre (cfboost_init K true 0
                (unloaded now boost_freq boost_time)).2).boost_freq : Nat) : Int)
                - 4294967296))) ∧
    ((run K acts (cfboost_init K true 0
        (unloaded now boost_freq boost_time)).2).qos_req ≠ some K.PM_QOS_DEFAULT_VALUE →
      ∃ d, (run K acts (cfboost_init K true 0
        (unloaded now boost_freq boost_time)).2).unboost = some d) := by
  obtain ⟨hadded, hval, hdl⟩ :=
    run_floor K (cfboost_init K true 0 (unloaded now boost_freq boost_time)).2
      (by simp [cfboost_init_ok_eq]) acts
  refine ⟨hadded, ?_, hdl⟩
  rcases hval with hdef | ⟨pre, post, hsplit, hb, hq⟩
  · exact Or.inl hdef
  · refine Or.inr ⟨pre, post, hsplit, hb, hq, ?_, ?_⟩
    · intro hlt
      rw [hq, s32_of_lt _ hlt]
    · intro hge hlt
      rw [hq, s32_of_ge _ hge hlt]

/-- C9 at a concrete run: an event, the boost, a rewrite of `boost_freq`,
a second event and its boost: the floor is the rewritten value and a deadline
is pending. -/
theorem floor_never_leaks_witness :
    (run msKernel [Action.input 3 0 1, Action.work, Action.set_boost_freq 1500000,
      Action.advance, Action.input 3 0 1, Action.work]
      (cfboost_init msKernel true 0 (unloaded 0 1026000 500)).2).qos_req = some 1500000 ∧
    ∃ d, (run msKernel [Action.input 3 0 1, Action.work, Action.set_boost_freq 1500000,
      Action.advance, Action.input 3 0 1, Action.work]
      (cfboost_init msKernel true 0 (unloaded 0 1026000 500)).2).unboost = some d :=
  ⟨by decide,
   (floor_never_leaks msKernel 0 1026000 500
      [Action.input 3 0 1, Action.work, Action.set_boost_freq 1500000,
       Action.advance, Action.input 3 0 1, Action.work]).2.2 (by decide)⟩

/-- C9 as stated fails: write 3000000000 to `boost_freq` after
`cfboost_init`, then let an input event and its boost work run.  `cfb_boost`
finds `boost_freq = 3000000000` and the request ends up holding -1294967296:
not `PM_QOS_DEFAULT_VALUE`, and not a value that `boost_freq`, an unsigned
number, held then or can ever hold. -/
theorem floor_negative_for_large_boost_freq :
    (run msKernel [Action.set_boost_freq 3000000000, Action.input 3 0 1]
      (cfboost_init msKernel true 0 (unloaded 0 1026000 500)).2).boost_freq
      = 3000000000 ∧
    (run msKernel [Action.set_boost_freq 3000000000, Action.input 3 0 1]
      (cfboost_init msKernel true 0 (unloaded 0 1026000 500)).2).boost = true ∧
    (run msKernel [Action.set_boost_freq 3000000000, Action.input 3 0 1, Action.work]
      (cfboost_init msKernel true 0 (unloaded 0 1026000 500)).2).qos_req
      = some (-1294967296) ∧
    (run msKernel [Action.set_boost_freq 3000000000, Action.input 3 0 1, Action.work]
      (cfboost_init msKernel true 0 (unloaded 0 1026000 500)).2).qos_req
      ≠ some msKernel.PM_QOS_DEFAULT_VALUE ∧
    (run msKernel [Action.set_boost_freq 3000000000, Action.input 3 0 1, Action.work]
      (cfboost_init msKernel true 0 (unloaded 0 1026000 500)).2).qos_req
      ≠ some ((3000000000 : Nat) : Int) ∧
    ¬ ∃ n : Nat,
      (run msKernel [Action.set_boost_freq 3000000000, Action.input 3 0 1, Action.work]
        (cfboost_init msKernel true 0 (unloaded 0 1026000 500)).2).qos_req
        = some (n : Int) := by
  have hq : (run msKernel
      [Action.set_boost_freq 3000000000, Action.input 3 0 1, Action.work]
      (cfboost_init msKernel true 0 (unloaded 0 1026000 500)).2).qos_req
      = some (-1294967296) := by decide
  refine ⟨by decide, by decide, hq, by decide, by decide, ?_⟩
  rintro ⟨n, hn⟩
  rw [hq] at hn
  have h := Option.some.inj hn
  omega

/-! ## C8: the handler is registered before the QoS request is added -/

/-- Five steps of the module from the start are `cfboost_init`. -/
theorem init_steps (K : Kernel) (hE : K.ENOMEM ≠ 0) (wq_ok : Bool) (reg_ret : Int)
    (s : State) :
    sys_run K (List.replicate 5 (SysAction.module wq_ok reg_ret))
        ⟨Pc.init_create_workqueue, s⟩
      = ⟨Pc.init_returned (cfboost_init K wq_ok reg_ret s).1,
         (cfboost_init K wq_ok reg_ret s).2⟩ := by
  cases wq_ok
  · simp [List.replicate, sys_run, sys_step, module_step, cfboost_init,
      create_workqueue, State.emit, hE]
  · by_cases hr : reg_ret = 0
    · simp [List.replicate, sys_run, sys_step, module_step, cfboost_init,
        create_workqueue, State.emit, hr]
    · simp [List.replicate, sys_run, sys_step, module_step, cfboost_init,
        create_workqueue, State.emit, hr]

/-- Five steps of a loaded module are `cfboost_exit`. -/
theorem exit_steps (K : Kernel) (wq_ok : Bool) (reg_ret : Int) (s : State) :
    sys_run K (List.replicate 5 (SysAction.module wq_ok reg_ret))
        ⟨Pc.init_returned 0, s⟩
      = ⟨Pc.exit_returned, cfboost_exit s⟩ := by
  simp [List.replicate, sys_run, sys_step, module_step, cfboost_exit]

theorem step_handler (K : Kernel) (a : Action) (s : State) :
    (step K a s).handler = s.handler ∧
    ((step K a s).qos_req.isSome = s.qos_req.isSome) := by
  obtain ⟨j, bf, bt, wq, b, u, q, hd, tr⟩ := s
  cases a with
  | input type code value =>
    cases b <;> cases hd <;>
      simp [step, input_pass_event, cfb_input_event, queue_work, State.emit]
  | work =>
    cases b
    · simp [step, process_one_work]
    · simp [step, process_one_work, cfb_boost_eq]
  | expire =>
    cases u with
    | none => simp [step, run_timers]
    | some d =>
      by_cases hdue : d ≤ j
      · simp [step, run_timers, hdue, cfb_unboost_eq]
      · simp [step, run_timers, hdue]
  | advance => simp [step, advance]
  | set_boost_freq w => simp [step]
  | set_boost_time w => simp [step]

theorem module_step_after_init (K : Kernel) (wq_ok : Bool) (reg_ret : Int) (m : Module)
    (h1 : m.pc.after_init = true)
    (h2 : m.st.handler = true → m.pc = Pc.init_returned 0 ∧ qos_active m.st = true) :
    (module_step K wq_ok reg_ret m).pc.after_init = true ∧
    ((module_step K wq_ok reg_ret m).st.handler = true →
      (module_step K wq_ok reg_ret m).pc = Pc.init_returned 0 ∧
      qos_active (module_step K wq_ok reg_ret m).st = true) := by
  obtain ⟨pc, s⟩ := m
  cases pc with
  | init_create_workqueue => simp [Pc.after_init] at h1
  | init_INIT_WORK => simp [Pc.after_init] at h1
  | init_INIT_DELAYED_WORK => simp [Pc.after_init] at h1
  | init_register_handler => simp [Pc.after_init] at h1
  | init_destroy_workqueue ret => simp [Pc.after_init] at h1
  | init_add_request => simp [Pc.after_init] at h1
  | init_returned ret =>
    by_cases hret : ret = 0
    · simp [module_step, hret, Pc.after_init, input_unregister_handler, State.emit]
    · simp only [module_step, hret, if_false]
      exact ⟨h1, h2⟩
  | exit_cancel_work =>
    refine ⟨by simp [module_step, Pc.after_init], fun hh => ?_⟩
    have := (h2 (by simpa [module_step, cancel_work_sync, State.emit] using hh)).1
    simp at this
  | exit_cancel_delayed_work =>
    refine ⟨by simp [module_step, Pc.after_init], fun hh => ?_⟩
    have := (h2 (by simpa [module_step, cancel_delayed_work_sync, State.emit] using hh)).1
    simp at this
  | exit_destroy_workqueue =>
    refine ⟨by simp [module_step, Pc.after_init], fun hh => ?_⟩
    have := (h2 (by simpa [module_step, destroy_workqueue, State.emit] using hh)).1
    simp at this
  | exit_remove_request =>
    refine ⟨by simp [module_step, Pc.after_init], fun hh => ?_⟩
    have := (h2 (by simpa [module_step, pm_qos_remove_request, State.emit] using hh)).1
    simp at this
  | exit_returned =>
    refine ⟨by simp [module_step, Pc.after_init], fun hh => ?_⟩
    have := (h2 (by simpa [module_step] using hh)).1
    simp at this

/-- From `cfboost_init` having returned on, the order is right: in every state
the system reaches, whatever happens between the kernel calls of
`cfboost_exit`, a registered handler finds the request added. -/
theorem registered_implies_added_after_init (K : Kernel) (acts : List SysAction) :
    ∀ m : Module, m.pc.after_init = true →
      (m.st.handler = true → m.pc = Pc.init_returned 0 ∧ qos_active m.st = true) →
      (sys_run K acts m).pc.after_init = true ∧
      ((sys_run K acts m).st.handler = true →
        (sys_run K acts m).pc = Pc.init_returned 0 ∧
        qos_active (sys_run K acts m).st = true) := by
  induction acts with
  | nil => intro m h1 h2; exact ⟨h1, h2⟩
  | cons a as ih =>
    intro m h1 h2
    simp only [sys_run]
    cases a with
    | env e =>
      apply ih
      · simpa [sys_step] using h1
      · intro hh
        have hs := step_handler K e m.st
        simp only [sys_step] at hh ⊢
        rw [hs.1] at hh
        exact ⟨(h2 hh).1, by simpa [qos_active, hs.2] using (h2 hh).2⟩
    | module wq_ok reg_ret =>
      have h := module_step_after_init K wq_ok reg_ret m h1 h2
      exact ih _ h.1 h.2

/-- C8 fails in `cfboost_init`.  Load the module with every call succeeding:
after the fourth kernel call, `input_register_handler`, the handler is
registered and the QoS request has not been added.  An input event delivered
there queues the boost work, and `cfb_boost` calls `pm_qos_update_request`
with 1026000 on the request that is not on the constraint list, so no floor
is raised.  `pm_qos_add_request` then adds the request at the default while
the unboost deadline of that boost is still pending. -/
theorem handler_registered_before_request_added :
    (sys_run msKernel init_until_registered module_unloaded).pc = Pc.init_add_request ∧
    (sys_run msKernel init_until_registered module_unloaded).st.handler = true ∧
    qos_active (sys_run msKernel init_until_registered module_unloaded).st = false ∧
    qos_updates (sys_run msKernel (init_until_registered ++ event_and_boost)
      module_unloaded).st.trace = [(0, 1026000)] ∧
    (sys_run msKernel (init_until_registered ++ event_and_boost)
      module_unloaded).st.qos_req = none ∧
    (sys_run msKernel (init_until_registered ++ event_and_boost ++
      [SysAction.module true 0]) module_unloaded).pc = Pc.init_returned 0 ∧
    (sys_run msKernel (init_until_registered ++ event_and_boost ++
      [SysAction.module true 0]) module_unloaded).st.qos_req = some (-1) ∧
    (sys_run msKernel (init_until_registered ++ event_and_boost ++
      [SysAction.module true 0]) module_unloaded).st.unboost = some 500 := by
  decide

/-! ## C10: `cfb_input_connect` and `cfb_input_disconnect` -/

/-- Writes through `p` leave every handle at another address as it was. -/
theorem heap_write_other (p : Nat) (f : input_handle → input_handle)
    (heap : List (Nat × input_handle)) (h : ∀ e ∈ heap, e.1 ≠ p) :
    heap.map (fun e => if e.1 = p then (e.1, f e.2) else e) = heap := by
  induction heap with
  | nil => rfl
  | cons e es ih =>
    have he : e.1 ≠ p := h e (by simp)
    have hes : ∀ x ∈ es, x.1 ≠ p := fun x hx => h x (by simp [hx])
    simp [he, ih hes]

theorem heap_filter_other (p : Nat) (heap : List (Nat × input_handle))
    (h : ∀ e ∈ heap, e.1 ≠ p) :
    heap.filter (fun e => decide (e.1 ≠ p)) = heap := by
  rw [List.filter_eq_self]
  intro e he
  simpa using h e he

theorem filter_other (p : Nat) (l : List Nat) (h : p ∉ l) :
    l.filter (fun q => decide (q ≠ p)) = l := by
  rw [List.filter_eq_self]
  intro q hq
  have : q ≠ p := fun hqp => h (hqp ▸ hq)
  simpa using this

/-- The state a successful `cfb_input_connect` leaves, for a fresh address. -/
theorem connect_ok_eq (K : Kernel) (p handler dev id : Nat) (c : InputCore)
    (hf : fresh p c) :
    cfb_input_connect K (some p) 0 0 handler dev id c =
      (0, { heap := (p, { dev := dev, handler := handler, name := "icfboost" }) :: c.heap,
            registered := p :: c.registered,
            opened := p :: c.opened,
            calls := c.calls ++
              [InputCall.kzalloc (some p), InputCall.input_register_handle p 0,
               InputCall.input_open_device p 0] }) := by
  obtain ⟨hh, _, _⟩ := hf
  simp [cfb_input_connect, kzalloc, handle_write, input_register_handle,
    input_open_device, heap_write_other p _ c.heap hh, List.map_map]
  conv_rhs => rw [← List.map_id c.heap]
  apply List.map_congr_left
  intro e he
  simp [hh e he]

/-- C10.  `cfb_input_connect` returns 0 exactly when the allocation, the
registration and the opening all succeed; then the handle, with `dev`,
`handler` and the name "icfboost" set, is registered and open.  It returns
`-ENOMEM` when the allocation fails; the code of a failed registration, with
the handle freed and never registered; the code of a failed opening, with the
handle unregistered and then freed.  `cfb_input_disconnect` closes,
unregisters and frees the handle, so after connect and disconnect the
handle's address is allocated, registered and open nowhere, and for an
address that was fresh every handle, registration and opening is as before. -/
theorem connect_all_or_nothing (K : Kernel) (hE : K.ENOMEM ≠ 0)
    (alloc : Option Nat) (reg_ret open_ret : Int) (handler dev id : Nat)
    (c : InputCore) :
    ((cfb_input_connect K alloc reg_ret open_ret handler dev id c).1 = 0
      ↔ (alloc ≠ none ∧ reg_ret = 0 ∧ open_ret = 0)) ∧
    (∀ p, alloc = some p → reg_ret = 0 → open_ret = 0 →
      handle_at p (cfb_input_connect K alloc reg_ret open_ret handler dev id c).2
        = some { dev := dev, handler := handler, name := "icfboost" } ∧
      p ∈ (cfb_input_connect K alloc reg_ret open_ret handler dev id c).2.registered ∧
      p ∈ (cfb_input_connect K alloc reg_ret open_ret handler dev id c).2.opened ∧
      (cfb_input_connect K alloc reg_ret open_ret handler dev id c).2.calls
        = c.calls ++ [InputCall.kzalloc (some p), InputCall.input_register_handle p 0,
            InputCall.input_open_device p 0]) ∧
    (alloc = none →
      cfb_input_connect K alloc reg_ret open_ret handler dev id c
        = (-K.ENOMEM, { c with calls := c.calls ++ [InputCall.kzalloc none] })) ∧
    (∀ p, alloc = some p → reg_ret ≠ 0 →
      (cfb_input_connect K alloc reg_ret open_ret handler dev id c).1 = reg_ret ∧
      (∀ e ∈ (cfb_input_connect K alloc reg_ret open_ret handler dev id c).2.heap,
        e.1 ≠ p) ∧
      (cfb_input_connect K alloc reg_ret open_ret handler dev id c).2.registered
        = c.registered ∧
      (cfb_input_connect K alloc reg_ret open_ret handler dev id c).2.opened
        = c.opened ∧
      (cfb_input_connect K alloc reg_ret open_ret handler dev id c).2.calls
        = c.calls ++ [InputCall.kzalloc (some p),
            InputCall.input_register_handle p reg_ret, InputCall.kfree p]) ∧
    (∀ p, alloc = some p → reg_ret = 0 → open_ret ≠ 0 →
      (cfb_input_connect K alloc reg_ret open_ret handler dev id c).1 = open_ret ∧
      (∀ e ∈ (cfb_input_connect K alloc reg_ret open_ret handler dev id c).2.heap,
        e.1 ≠ p) ∧
      p ∉ (cfb_input_connect K alloc reg_ret open_ret handler dev id c).2.registered ∧
      (cfb_input_connect K alloc reg_ret open_ret handler dev id c).2.opened
        = c.opened ∧
      (cfb_input_connect K alloc reg_ret open_ret handler dev id c).2.calls
        = c.calls ++ [InputCall.kzalloc (some p), InputCall.input_register_handle p 0,
            InputCall.input_open_device p open_ret,
            InputCall.input_unregister_handle p, InputCall.kfree p]) ∧
    (∀ p, alloc = some p → reg_ret = 0 → open_ret = 0 →
      (∀ e ∈ (cfb_input_disconnect p
          (cfb_input_connect K alloc reg_ret open_ret handler dev id c).2).heap,
        e.1 ≠ p) ∧
      p ∉ (cfb_input_disconnect p
          (cfb_input_connect K alloc reg_ret open_ret handler dev id c).2).registered ∧
      p ∉ (cfb_input_disconnect p
          (cfb_input_connect K alloc reg_ret open_ret handler dev id c).2).opened ∧
      (cfb_input_disconnect p
          (cfb_input_connect K alloc reg_ret open_ret handler dev id c).2).calls
        = c.calls ++ [InputCall.kzalloc (some p), InputCall.input_register_handle p 0,
            InputCall.input_open_device p 0, InputCall.input_close_device p,
            InputCall.input_unregister_handle p, InputCall.kfree p] ∧
      (fresh p c →
        cfb_input_disconnect p
            (cfb_input_connect K alloc reg_ret open_ret handler dev id c).2
          = { c with
              calls := c.calls ++
                [InputCall.kzalloc (some p), InputCall.input_register_handle p 0,
                 InputCall.input_open_device p 0, InputCall.input_close_device p,
                 InputCall.input_unregister_handle p, InputCall.kfree p] })) := by
  refine ⟨?_, ?_, ?_, ?_, ?_, ?_⟩
  · cases alloc with
    | none => simp [cfb_input_connect, hE]
    | some p =>
      by_cases hr : reg_ret = 0
      · by_cases ho : open_ret = 0
        · simp [cfb_input_connect, hr, ho]
        · simp [cfb_input_connect, hr, ho]
      · simp [cfb_input_connect, hr]
  · intro p hp hr ho
    subst hp hr ho
    simp [cfb_input_connect, kzalloc, handle_write, input_register_handle,
      input_open_device, handle_at]
  · intro hp
    subst hp
    simp [cfb_input_connect, kzalloc]
  · intro p hp hr
    subst hp
    simp [cfb_input_connect, kzalloc, handle_write, input_register_handle, kfree, hr]
  · intro p hp hr ho
    subst hp hr
    simp [cfb_input_connect, kzalloc, handle_write, input_register_handle,
      input_open_device, input_unregister_handle, kfree, ho]
  · intro p hp hr ho
    subst hp hr ho
    refine ⟨?_, ?_, ?_, ?_, ?_⟩
    · simp [cfb_input_connect, cfb_input_disconnect, kzalloc, handle_write,
        input_register_handle, input_open_device, input_close_device,
        input_unregister_handle, kfree]
    · simp [cfb_input_connect, cfb_input_disconnect, kzalloc, handle_write,
        input_register_handle, input_open_device, input_close_device,
        input_unregister_handle, kfree]
    · simp [cfb_input_connect, cfb_input_disconnect, kzalloc, handle_write,
        input_register_handle, input_open_device, input_close_device,
        input_unregister_handle, kfree]
    · simp [cfb_input_connect, cfb_input_disconnect, kzalloc, handle_write,
        input_register_handle, input_open_device, input_close_device,
        input_unregister_handle, kfree]
    · intro hf
      rw [connect_ok_eq K p handler dev id c hf]
      obtain ⟨hh, hreg, hop⟩ := hf
      simp only [cfb_input_disconnect, input_close_device, input_unregister_handle, kfree]
      simp only [heap_filter_other p c.heap hh, filter_other p _ hreg, filter_other p _ hop,
        List.filter_cons, List.append_assoc, List.cons_append, List.nil_append]
      simp

/-- C10 at concrete inputs: `ENOMEM = 12`, a handle at address 4096 on an
empty input core, every call succeeding, then disconnect. -/
theorem connect_all_or_nothing_witness :
    msKernel.ENOMEM ≠ 0 ∧
    (cfb_input_connect msKernel (some 4096) 0 0 1 2 0 ⟨[], [], [], []⟩).1 = 0 ∧
    (cfb_input_disconnect 4096
      (cfb_input_connect msKernel (some 4096) 0 0 1 2 0 ⟨[], [], [], []⟩).2).calls
      = [InputCall.kzalloc (some 4096), InputCall.input_register_handle 4096 0,
         InputCall.input_open_device 4096 0, InputCall.input_close_device 4096,
         InputCall.input_unregister_handle 4096, InputCall.kfree 4096] :=
  ⟨by decide,
   (connect_all_or_nothing msKernel (by decide) (some 4096) 0 0 1 2 0
      ⟨[], [], [], []⟩).1.2 ⟨by decide, rfl, rfl⟩,
   ((connect_all_or_nothing msKernel (by decide) (some 4096) 0 0 1 2 0
      ⟨[], [], [], []⟩).2.2.2.2.2 4096 rfl rfl rfl).2.2.2.1⟩

end CFBoost
